import Mathlib

/-!
Verification of the PSX mesh exporter (`exportpsx.py`) against its
natural-language specification.  The Python functions relevant to the
claims are shallowly embedded below: numeric code over `ℚ`/`ℤ`
(the Python builtin `round` does round-half-to-even, `math.ceil` is the integer
ceiling), string-building code over `String`, and the dictionary-based
algorithms over insertion-ordered association lists.
-/

namespace PsxExport

/-- Floor of a rational, written so the kernel can evaluate it. -/
def pyFloor (q : ℚ) : ℤ := q.num / q.den

/-- Embedding of the Python builtin `round` on a rational value: round half to even. -/
def pyRound (q : ℚ) : ℤ :=
  let f := pyFloor q
  let r := q - (f : ℚ)
  if r < 1/2 then f
  else if 1/2 < r then f + 1
  else if f % 2 = 0 then f else f + 1

/-- Embedding of Python `math.ceil`. -/
def pyCeil (q : ℚ) : ℤ := -pyFloor (-q)

/-- Embedding of Python `round(x, 4)`: round to four decimal places. -/
def round4 (q : ℚ) : ℚ := (pyRound (q * 10000) : ℚ) / 10000

/- ### Texture packer (VRAM allocator), `VramIsFull` -/

/-- Mutable allocator state read by `VramIsFull` (`self.TIMbpp`,
`self.tpageY`, `self.nextTpage`, `self.freeTpage`). -/
structure VramState where
  TIMbpp : ℕ
  tpageY : ℤ
  nextTpage : ℤ
  freeTpage : ℤ

/-- Bit-depth to bit-shift transposition at the top of `VramIsFull`. -/
def bppShift (bpp : ℕ) : ℕ :=
  if bpp = 8 then 1 else if bpp = 4 then 2 else 0

/-- Embedding of `ceil(imageWidth / 64)` applied to the bpp-adjusted width
(`size >> shift`), i.e. the number of 64-px cells the image needs. -/
def widthInTPage (st : VramState) (size : ℕ) : ℕ :=
  (size >>> bppShift st.TIMbpp + 63) / 64

/-- Embedding of `VramIsFull` from `exportpsx.py`: `True` means no space left. -/
def VramIsFull (st : VramState) (size : ℕ) : Bool :=
  let w : ℤ := widthInTPage st size
  if st.tpageY = 0 ∧ st.nextTpage + w * 64 < 1024 ∧ st.freeTpage - w > 0 then
    false
  else if st.tpageY = 256 ∧ st.nextTpage + w * 64 < 960 ∧ st.freeTpage - w > 1 then
    false
  else
    true

/- ### Geometry encoder, `populate_mesh` -/

/-- Vertex fixed-point encoding from `populate_mesh`:
`(ceil(x*scale), ceil(-z*scale), ceil(y*scale))` (note `ceil`). -/
def vertEmit (x y z s : ℚ) : ℤ × ℤ × ℤ :=
  (pyCeil (x * s), pyCeil (-z * s), pyCeil (y * s))

/-- Normal fixed-point encoding from `populate_mesh`:
`(round(-nx*4096), round(nz*4096), round(-ny*4096))`. -/
def normalEmit (nx ny nz : ℚ) : ℤ × ℤ × ℤ :=
  (pyRound (-nx * 4096), pyRound (nz * 4096), pyRound (-ny * 4096))

/-- Modelled from the words of the spec, for comparison with `vertEmit`:
`(round(x*scale), round(-z*scale), round(y*scale))`. -/
def vertClaimed (x y z s : ℚ) : ℤ × ℤ × ℤ :=
  (pyRound (x * s), pyRound (-z * s), pyRound (y * s))

/-- Modelled from the words of the spec, for comparison with `normalEmit`:
`round(component*4096)` under the `(x, -z, y)` remap. -/
def normalClaimed (nx ny nz : ℚ) : ℤ × ℤ × ℤ :=
  (pyRound (nx * 4096), pyRound (-nz * 4096), pyRound (ny * 4096))

/- ### Geometry encoder, UV texel coordinates -/

/-- Emitted U texel from `populate_mesh`: `max(0, min(round(u.x * tex_width), 255))`. -/
def uvEmitU (u : ℚ) (w : ℕ) : ℤ :=
  max 0 (min (pyRound (u * w)) 255)

/-- Emitted V texel from `populate_mesh`:
`max(0, min(round(tex_height - u.y * tex_height), 255))` — the V axis is
flipped by the texture height before rounding and clamping. -/
def uvEmitV (v : ℚ) (h : ℕ) : ℤ :=
  max 0 (min (pyRound ((h : ℚ) - v * h)) 255)

/-- Modelled from the words of the spec, for comparison with
`uvEmitU`/`uvEmitV`: normalized UV times pixel dimensions, clamped. -/
def uvClaimed (u v : ℚ) (w h : ℕ) : ℤ × ℤ :=
  (max 0 (min (pyRound (u * w)) 255), max 0 (min (pyRound (v * h)) 255))

/- ### Animation flattener, `writeVANIM` -/

/-- Absolute fixed-point position a frame sample gets in `writeVANIM`:
`Vector(round(x*scale), round(-z*scale), round(y*scale))`.
`co f i` is the sampled local coordinate `(x, y, z)` of vertex `i`
at frame `f` of the strip. -/
def vanimAbs (co : ℕ → ℕ → ℚ × ℚ × ℚ) (s : ℚ) (f i : ℕ) : ℤ × ℤ × ℤ :=
  (pyRound ((co f i).1 * s), pyRound (-(co f i).2.2 * s), pyRound ((co f i).2.1 * s))

/-- The vector `writeVANIM` actually writes for frame `f`, vertex `i`.
With compression on, every frame stores
`currentFrameItem[i] - previousFrameItem[i]`; on the first frame
`previousFrameItem` *is* `currentFrameItem`, so frame 0 stores the zero
vector. Without compression the absolute vector is stored. -/
def vanimStored (compress : Bool) (co : ℕ → ℕ → ℚ × ℚ × ℚ) (s : ℚ)
    (f i : ℕ) : ℤ × ℤ × ℤ :=
  if compress then
    if f = 0 then (0, 0, 0)
    else vanimAbs co s f i - vanimAbs co s (f - 1) i
  else vanimAbs co s f i

/-- Cumulative sum of the stored vectors from frame 0 through frame `k`. -/
def vanimCumSum (g : ℕ → ℤ × ℤ × ℤ) (k : ℕ) : ℤ × ℤ × ℤ :=
  ∑ j ∈ Finset.range (k + 1), g j

/- ### Spatial partitioner: `checkLine`, `isInPlane`, `getSepLine` -/

/-- The sign-combination dispatch at the end of `checkLine`: the chain
of `if`/`elif` over the signs of the two rounded cross products. The
Python function has no final `else`, so a fall through would return
`None`; that is the `none` case here. -/
def signClassify (val1 val2 : ℚ) : Option String :=
  if 0 < val1 ∧ 0 < val2 then some ("front")
  else if val1 < 0 ∧ val2 < 0 then some ("back")
  else if val1 = 0 ∧ val2 = 0 then some ("connected")
  else if (0 < val1 ∧ val2 = 0) ∨ (val1 = 0 ∧ 0 < val2) then some ("front")
  else if (val1 < 0 ∧ val2 = 0) ∨ (val1 = 0 ∧ val2 < 0) then some ("back")
  else if (val1 < 0 ∧ 0 < val2) ∨ (0 < val1 ∧ val2 < 0) then some ("intersect")
  else none

/-- Embedding of `checkLine` from `exportpsx.py`: classify the segment
`(objX1, objY1)-(objX2, objY2)` against the line through
`(lineX1, lineY1)-(lineX2, lineY2)` by the signs of the two cross
products, each rounded with `round(val, 4)`. -/
def checkLine (lineX1 lineY1 lineX2 lineY2 objX1 objY1 objX2 objY2 : ℚ) :
    Option String :=
  signClassify
    (round4 ((objX1 - lineX1) * (lineY2 - lineY1) -
      (objY1 - lineY1) * (lineX2 - lineX1)))
    (round4 ((objX2 - lineX1) * (lineY2 - lineY1) -
      (objY2 - lineY1) * (lineX2 - lineX1)))

/-- World-space 2D AABB of a level plane or object
(the `x1`/`y1`/`x2`/`y2` dict). -/
structure Box where
  x1 : ℚ
  y1 : ℚ
  x2 : ℚ
  y2 : ℚ
deriving DecidableEq

/-- A box built from min/max over vertex coordinates: `x1 ≤ x2 ∧ y1 ≤ y2`. -/
def Box.wf (b : Box) : Prop := b.x1 ≤ b.x2 ∧ b.y1 ≤ b.y2

/-- Embedding of `isInPlane` from `exportpsx.py`: containment / directional-overlap
classifier returning 1 (contained), 4 (W), 6 (E), 8 (N), 2 (S) or 0. -/
def isInPlane (p o : Box) : ℤ :=
  if p.x1 ≤ o.x1 ∧ p.x2 ≥ o.x2 ∧ p.y1 ≤ o.y1 ∧ p.y2 ≥ o.y2 then 1
  else if p.x1 ≥ o.x1 ∧ p.x1 ≤ o.x2 ∧ p.y1 ≤ o.y2 ∧ p.y2 ≥ o.y1 then 4
  else if p.x2 ≤ o.x2 ∧ p.x2 ≥ o.x1 ∧ p.y1 ≤ o.y2 ∧ p.y2 ≥ o.y1 then 6
  else if p.y2 ≤ o.y2 ∧ p.y2 ≥ o.y1 ∧ p.x1 ≤ o.x1 ∧ p.x2 ≥ o.x2 then 8
  else if p.y1 ≥ o.y1 ∧ p.y1 ≤ o.y2 ∧ p.x1 ≤ o.x1 ∧ p.x2 ≥ o.x2 then 2
  else 0

/-- The four sides of a plane. -/
inductive Side
  | N
  | S
  | W
  | E
deriving DecidableEq

/-- The second member of each `checkSides` pair
(the pairs (N, S), (S, N), (W, E), (E, W)). -/
def Side.opposite : Side → Side
  | .N => .S
  | .S => .N
  | .W => .E
  | .E => .W

/-- Embedding of `getSepLine`: the bounding edge of a side as `[x0, y0, x1, y1]`. -/
def getSepLine (b : Box) : Side → ℚ × ℚ × ℚ × ℚ
  | .N => (b.x1, b.y2, b.x2, b.y2)
  | .S => (b.x1, b.y1, b.x2, b.y1)
  | .W => (b.x1, b.y1, b.x1, b.y2)
  | .E => (b.x2, b.y1, b.x2, b.y2)

/-- The sibling test from `populate_spatial_partitioning`: plane `p`
records plane `op` as a sibling on side `s` when the separating
edges of the pair classify as connected and `isInPlane` is truthy. -/
def listsSibling (p op : Box) (s : Side) : Bool :=
  let l := getSepLine p s
  let o := getSepLine op s.opposite
  decide (checkLine l.1 l.2.1 l.2.2.1 l.2.2.2 o.1 o.2.1 o.2.2.1 o.2.2.2 =
      some ("connected") ∧ isInPlane p op ≠ 0)

/-- Closed AABB intersection. -/
def boxIntersects (a b : Box) : Prop :=
  a.x1 ≤ b.x2 ∧ b.x1 ≤ a.x2 ∧ a.y1 ≤ b.y2 ∧ b.y1 ≤ a.y2

/-- The side-`s` edge of `p` exactly coincides with the opposite edge
of `op` (no rounding tolerance). -/
def edgesCoincide (p op : Box) : Side → Prop
  | .N => op.y1 = p.y2
  | .S => op.y2 = p.y1
  | .W => op.x2 = p.x1
  | .E => op.x1 = p.x2

/- ### Animation flattener: `findOverlappingTrack` and the merged range -/

/-- An NLA strip: identity plus `frame_start` / `frame_end`. -/
structure Strip where
  id : ℕ
  frameStart : ℚ
  frameEnd : ℚ
deriving DecidableEq

/-- The `overlappingStrips` dictionary: insertion-ordered association
list from a strip (dict key) to the list of strips overlapping it. -/
abbrev OverlapDict := List (Strip × List Strip)

/-- Python `key in dict`. -/
def keyMem (d : OverlapDict) (k : Strip) : Bool :=
  d.any fun e => e.1 = k

/-- Python `dict[key].append(v)`. -/
def appendVal (d : OverlapDict) (k : Strip) (v : Strip) : OverlapDict :=
  d.map fun e => if e.1 = k then (e.1, e.2 ++ [v]) else e

/-- One iteration of the inner loop of `findOverlappingTrack`. -/
def overlapStep (tmp : Strip) (d : OverlapDict) (other : Strip) : OverlapDict :=
  if other.frameStart < tmp.frameEnd then
    if tmp.frameStart < other.frameEnd then
      if keyMem d other then
        if ¬ keyMem d tmp then appendVal d other tmp else d
      else
        if ¬ keyMem d tmp then d ++ [(other, [tmp])] else d
    else d
  else d

/-- Embedding of `findOverlappingTrack` from `exportpsx.py` over the flattened strip
list (`tmpStrips`). -/
def findOverlappingTrack (strips : List Strip) : OverlapDict :=
  strips.foldl
    (fun d tmp => (strips.filter fun o => o ≠ tmp).foldl (overlapStep tmp) d)
    []

/-- Embedding of `strip_start` computed in `parse_anim` when mixing is enabled:
`min(strip.frame_start, min(action.frame_start for action in group))`. -/
def mergedStart (k : Strip) (group : List Strip) : ℚ :=
  (group.map Strip.frameStart).foldl min k.frameStart

/-- Embedding of `strip_end` computed in `parse_anim` when mixing is enabled. NB the
source takes `max(strip.frame_start, max(action.frame_end …))` — the
key strip contributes its *start* frame, not its end frame. -/
def mergedEnd (k : Strip) (group : List Strip) : ℚ :=
  (group.map Strip.frameEnd).foldl max k.frameStart

/- ### Symbol table entries from `populate_mesh` -/

/-- The identifier that `populate_mesh` declares (and later records
reference) for the vertex array of a mesh:
`"SVECTOR " + fileName + "_model" + cleanName + "_mesh[] = {"`. -/
def svectorMeshDecl (fileName name : String) : String :=
  "SVECTOR " ++ fileName ++ "_model" ++ name ++ "_mesh[] = \x7b"

/-- The entries `populate_mesh` pushes into `level_symbols` for the
vertex and normal arrays. The vertex entry (line 866) omits the
`fileName` prefix; the normal entry (line 890) includes it. -/
def populateMeshSymbols (fileName name : String) : List String :=
  ["SVECTOR " ++ "model" ++ name ++ "_mesh[]",
   "SVECTOR " ++ fileName ++ "_model" ++ name ++ "_normal[]"]

/-- The extern line `write_level_c_h` emits for a symbol table entry. -/
def externLine (symbol : String) : String :=
  "extern " ++ symbol ++ ";"

/- ### Visibility resolver, `populate_cam_angle` -/

/-- The scene queries `populate_cam_angle` makes about a candidate
target (objects are names/handles, here `ℕ`): frame containment, the
hit of the first ray cast, whether that hit is flagged `isPortal`, and the
hit of the second, offset ray cast. -/
structure VisOracle where
  inFrame : ℕ → Bool
  firstHit : ℕ → Option ℕ
  isPortal : ℕ → Bool
  secondHit : ℕ → Option ℕ

/-- Body of the target loop of `populate_cam_angle`: `target` is
appended to `visibleTarget` exactly when this returns `true`. -/
def targetVisible (o : VisOracle) (rayTargets : List ℕ) (t : ℕ) : Bool :=
  o.inFrame t &&
    match o.firstHit t with
    | none => false
    | some h =>
      if o.isPortal h then
        match o.secondHit t with
        | none => false
        | some h2 => rayTargets.contains h2
      else rayTargets.contains h

/-- The `visibleTarget` list right after the ray-casting loop. -/
def visibleTargets (o : VisOracle) (rayTargets : List ℕ) : List ℕ :=
  rayTargets.filter (targetVisible o rayTargets)

/-- The final `visibleTarget` list written into the CAMANGLE record:
the actor is appended whenever the loop did not already find it. -/
def camAngleTargets (o : VisOracle) (rayTargets : List ℕ) (actor : ℕ) : List ℕ :=
  let v := visibleTargets o rayTargets
  if actor ∈ v then v else v ++ [actor]

/- ### Symbol emitter: the placeholder substitution pass -/

/-- Prefix test on character lists (structural, kernel-evaluable). -/
def listStartsWith : List Char → List Char → Bool
  | _, [] => true
  | [], _ :: _ => false
  | c :: cs, p :: ps => c = p && listStartsWith cs ps

/-- Embedding of `s.startsWith(p)` on strings. -/
def strStartsWith (s p : String) : Bool :=
  listStartsWith s.data p.data

/-- Leftmost, non-overlapping replacement of every occurrence of `pat`
(run with fuel so the recursion is structural). -/
def replaceFuel (rep pat : List Char) : ℕ → List Char → List Char
  | 0, s => s
  | fuel + 1, s =>
    match s with
    | [] => []
    | c :: cs =>
      if pat ≠ [] ∧ listStartsWith s pat = true then
        rep ++ replaceFuel rep pat fuel (s.drop pat.length)
      else
        c :: replaceFuel rep pat fuel cs

/-- Python `str.replace(pat, rep)` (for the non-empty patterns the
exporter uses): replace every occurrence, scanning left to right. -/
def strReplace (s pat rep : String) : String :=
  ⟨replaceFuel rep.data pat.data s.data.length s.data⟩

/-- One line run through the resolved-reference replacements of
`write_level_c_h`: for each prop with a resolved plane, occurrences of
`"subs_" + cleanName(moveable.name)` are replaced by
`"&" + fileName + "_node" + plane`. -/
def lineResolve (subs : List (String × String)) (l : String) : String :=
  subs.foldl (fun s p => strReplace s p.1 p.2) l

/-- The final pass `sub("(?m)^\tsubs_.*$", "\t0,", newdata)`: a line
still beginning with the placeholder prefix is replaced whole by the
zero-sentinel line. -/
def zeroUnresolved (l : String) : String :=
  if strStartsWith l ("\tsubs_") then "\t0," else l

/-- The whole substitution pass over the body file, seen as its list of
lines (the patterns and replacements contain no newline). -/
def substitutionPass (subs : List (String × String)) (doc : List String) :
    List String :=
  (doc.map (lineResolve subs)).map zeroUnresolved

/- ## Supporting lemmas -/

theorem pyFloor_eq_floor (q : ℚ) : pyFloor q = ⌊q⌋ :=
  Rat.floor_def.symm

theorem pyCeil_eq_ceil (q : ℚ) : pyCeil q = ⌈q⌉ := by
  rw [pyCeil, pyFloor_eq_floor, Int.floor_neg, neg_neg]

/-- Rewriting of `pyRound` with the mathematical floor. -/
theorem pyRound_eq (q : ℚ) :
    pyRound q =
      if q - (⌊q⌋ : ℚ) < 1/2 then ⌊q⌋
      else if 1/2 < q - (⌊q⌋ : ℚ) then ⌊q⌋ + 1
      else if ⌊q⌋ % 2 = 0 then ⌊q⌋ else ⌊q⌋ + 1 := by
  unfold pyRound
  dsimp only
  simp only [pyFloor_eq_floor]

theorem pyRound_intCast (n : ℤ) : pyRound (n : ℚ) = n := by
  rw [pyRound_eq]
  norm_num

theorem pyRound_zero : pyRound 0 = 0 := by
  simpa using pyRound_intCast 0

theorem round4_zero : round4 0 = 0 := by
  unfold round4
  norm_num [pyRound_zero]

/-- The rounded value is within half a unit of the input. -/
theorem pyRound_dist (q : ℚ) : |(pyRound q : ℚ) - q| ≤ 1/2 := by
  have h1 : (⌊q⌋ : ℚ) ≤ q := Int.floor_le q
  have h2 : q < (⌊q⌋ : ℚ) + 1 := Int.lt_floor_add_one q
  rw [pyRound_eq]
  split_ifs with hlt hgt heven <;>
    · rw [abs_le]
      push_cast
      constructor <;> linarith

theorem signClassify_zero : signClassify 0 0 = some ("connected") := by
  unfold signClassify
  norm_num

/-- Clamping `r` into `[0, 255]` yields the in-range value nearest `r`. -/
theorem clamp_proj (r t : ℤ) (h0 : 0 ≤ t) (h255 : t ≤ 255) :
    |max 0 (min r 255) - r| ≤ |t - r| := by
  rcases le_or_lt r 0 with h1 | h1
  · rw [min_eq_left (by omega), max_eq_left (by omega),
      abs_of_nonneg (by omega), abs_of_nonneg (by omega)]
    omega
  · rcases le_or_lt r 255 with h2 | h2
    · rw [min_eq_left h2, max_eq_right (by omega)]
      simp
    · rw [min_eq_right (by omega), show max (0 : ℤ) 255 = 255 by rfl,
        abs_of_nonpos (by omega), abs_of_nonpos (by omega)]
      omega

/-- For well-formed boxes, `isInPlane` is truthy exactly on closed AABB
intersection (hence truthiness is symmetric). -/
theorem isInPlane_ne_zero_iff (a b : Box) (ha : a.wf) (hb : b.wf) :
    isInPlane a b ≠ 0 ↔ boxIntersects a b := by
  obtain ⟨hax, hay⟩ := ha
  obtain ⟨hbx, hby⟩ := hb
  unfold isInPlane boxIntersects
  split_ifs with h1 h2 h3 h4 h5
  · obtain ⟨p, q, r, t⟩ := h1
    exact iff_of_true (by norm_num)
      ⟨by linarith, by linarith, by linarith, by linarith⟩
  · obtain ⟨p, q, r, t⟩ := h2
    exact iff_of_true (by norm_num)
      ⟨by linarith, by linarith, by linarith, by linarith⟩
  · obtain ⟨p, q, r, t⟩ := h3
    exact iff_of_true (by norm_num)
      ⟨by linarith, by linarith, by linarith, by linarith⟩
  · obtain ⟨p, q, r, t⟩ := h4
    exact iff_of_true (by norm_num)
      ⟨by linarith, by linarith, by linarith, by linarith⟩
  · obtain ⟨p, q, r, t⟩ := h5
    exact iff_of_true (by norm_num)
      ⟨by linarith, by linarith, by linarith, by linarith⟩
  · refine iff_of_false (by simp) ?_
    rintro ⟨i1, i2, i3, i4⟩
    rcases le_or_lt b.x1 a.x1 with hx | hx
    · exact h2 ⟨hx, i1, i3, i4⟩
    · rcases le_or_lt a.x2 b.x2 with hx2 | hx2
      · exact h3 ⟨hx2, i2, i3, i4⟩
      · rcases le_or_lt b.y1 a.y1 with hy | hy
        · exact h5 ⟨hy, i3, by linarith, by linarith⟩
        · rcases le_or_lt a.y2 b.y2 with hy2 | hy2
          · exact h4 ⟨hy2, i4, by linarith, by linarith⟩
          · exact h1 ⟨by linarith, by linarith, by linarith, by linarith⟩

theorem isInPlane_symm_ne (a b : Box) (ha : a.wf) (hb : b.wf)
    (h : isInPlane a b ≠ 0) : isInPlane b a ≠ 0 := by
  rw [isInPlane_ne_zero_iff b a hb ha]
  obtain ⟨i1, i2, i3, i4⟩ := (isInPlane_ne_zero_iff a b ha hb).1 h
  exact ⟨i2, i1, i4, i3⟩

theorem opposite_opposite (s : Side) : s.opposite.opposite = s := by
  cases s <;> rfl

set_option maxHeartbeats 2000000 in
/-- Totality of the sign dispatch: one of the four labels is always
returned. -/
theorem signClassify_total (v1 v2 : ℚ) :
    signClassify v1 v2 = some ("front") ∨
    signClassify v1 v2 = some ("back") ∨
    signClassify v1 v2 = some ("connected") ∨
    signClassify v1 v2 = some ("intersect") := by
  unfold signClassify
  rcases lt_trichotomy v1 0 with h1 | h1 | h1 <;>
    rcases lt_trichotomy v2 0 with h2 | h2 | h2 <;>
    split_ifs <;> tauto

/- ## Claim theorems -/

/-- C1, counterexample: a one-frame strip whose vertex rests at `x = 1`
already breaks the round trip — with compression on, frame 0 stores the
zero vector, so the cumulative sum at frame 0 is `(0,0,0)` while the
non-compressed encoding stores `(1,0,0)`. -/
theorem vanim_roundtrip_counterexample :
    vanimCumSum (fun f => vanimStored true (fun _ _ => (1, 0, 0)) 1 f 0) 0 ≠
      vanimStored false (fun _ _ => (1, 0, 0)) 1 0 0 := by
  with_unfolding_all decide

/-- C1, amended: the cumulative sum of the stored compressed vectors up
to frame `k` equals the absolute position at frame `k` *minus the
absolute position at frame 0* (the round trip only recovers positions
relative to the first frame, because frame 0 stores the zero vector). -/
theorem vanim_roundtrip_amended (co : ℕ → ℕ → ℚ × ℚ × ℚ) (s : ℚ) (k i : ℕ) :
    vanimCumSum (fun f => vanimStored true co s f i) k =
      vanimAbs co s k i - vanimAbs co s 0 i := by
  induction k with
  | zero =>
      unfold vanimCumSum
      rw [Finset.sum_range_one, sub_self]
      rfl
  | succ n ih =>
      have hstep : vanimCumSum (fun f => vanimStored true co s f i) (n + 1) =
          vanimCumSum (fun f => vanimStored true co s f i) n +
            vanimStored true co s (n + 1) i := by
        unfold vanimCumSum
        rw [Finset.sum_range_succ]
      have hdelta : vanimStored true co s (n + 1) i =
          vanimAbs co s (n + 1) i - vanimAbs co s n i := by
        simp [vanimStored]
      rw [hstep, ih, hdelta]
      abel

/-- C2, counterexample: the encoder uses `ceil`, not `round`, for
vertex positions (`ceil(2/5) = 1` but `round(2/5) = 0`), and negates
every normal component relative to the claimed `(x, -z, y)` remap. -/
theorem geometry_encoding_counterexample :
    vertEmit (2/5) 0 0 1 ≠ vertClaimed (2/5) 0 0 1 ∧
    normalEmit 1 0 0 ≠ normalClaimed 1 0 0 := by
  with_unfolding_all decide

/-- C2, amended: each emitted vertex component is the *ceiling* of the
axis-remapped scaled coordinate (the unique integer in
`[c, c + 1)` above it), and each emitted normal component is within
half a unit of the *negated* remapped value `(-x, z, -y) * 4096`. -/
theorem geometry_encoding_amended (x y z nx ny nz s : ℚ) :
    (x * s ≤ ((vertEmit x y z s).1 : ℚ) ∧ ((vertEmit x y z s).1 : ℚ) < x * s + 1) ∧
    (-z * s ≤ ((vertEmit x y z s).2.1 : ℚ) ∧
      ((vertEmit x y z s).2.1 : ℚ) < -z * s + 1) ∧
    (y * s ≤ ((vertEmit x y z s).2.2 : ℚ) ∧
      ((vertEmit x y z s).2.2 : ℚ) < y * s + 1) ∧
    |((normalEmit nx ny nz).1 : ℚ) - -nx * 4096| ≤ 1/2 ∧
    |((normalEmit nx ny nz).2.1 : ℚ) - nz * 4096| ≤ 1/2 ∧
    |((normalEmit nx ny nz).2.2 : ℚ) - -ny * 4096| ≤ 1/2 := by
  unfold vertEmit normalEmit
  refine ⟨⟨?_, ?_⟩, ⟨?_, ?_⟩, ⟨?_, ?_⟩, ?_, ?_, ?_⟩ <;>
    simp only [pyCeil_eq_ceil]
  · exact Int.le_ceil _
  · exact Int.ceil_lt_add_one _
  · exact Int.le_ceil _
  · exact Int.ceil_lt_add_one _
  · exact Int.le_ceil _
  · exact Int.ceil_lt_add_one _
  · exact pyRound_dist _
  · exact pyRound_dist _
  · exact pyRound_dist _

/-- C3: `VramIsFull` reports available space (returns `False`) exactly
when either the cursor row is `Y = 0` with
`nextTpage + cells*64 < 1024` and `freeTpage - cells > 0`, or the row
is `Y = 256` with `nextTpage + cells*64 < 960` and
`freeTpage - cells > 1`, where `cells` is the bpp-adjusted width in
64-px cells; in every other state it reports exhaustion. -/
theorem VramIsFull_false_iff (st : VramState) (size : ℕ) :
    VramIsFull st size = false ↔
      ((st.tpageY = 0 ∧
          st.nextTpage + (widthInTPage st size : ℤ) * 64 < 1024 ∧
          st.freeTpage - (widthInTPage st size : ℤ) > 0) ∨
        (st.tpageY = 256 ∧
          st.nextTpage + (widthInTPage st size : ℤ) * 64 < 960 ∧
          st.freeTpage - (widthInTPage st size : ℤ) > 1)) := by
  unfold VramIsFull
  dsimp only
  split_ifs with h1 h2
  · exact iff_of_true rfl (Or.inl h1)
  · exact iff_of_true rfl (Or.inr h2)
  · exact iff_of_false (by simp) (by rintro (h | h) <;> [exact h1 h; exact h2 h])

/-- C4, code-bug evaluation: two overlapping strips `A = [0, 5)` and
`B = [2, 10)` are grouped as one clip keyed by `B`, but the sampled
range ends at `max(B.frame_start, A.frame_end) = 5`, not at the
maximum end frame 10 that the adjacent source comment (Max frame end)
and the spec require — frames 5..10 of `B` are silently dropped. -/
theorem mixed_clip_range_bug_eval :
    findOverlappingTrack [⟨0, 0, 5⟩, ⟨1, 2, 10⟩] = [(⟨1, 2, 10⟩, [⟨0, 0, 5⟩])] ∧
    mergedStart ⟨1, 2, 10⟩ [⟨0, 0, 5⟩] = 0 ∧
    mergedEnd ⟨1, 2, 10⟩ [⟨0, 0, 5⟩] = 5 ∧
    mergedEnd ⟨1, 2, 10⟩ [⟨0, 0, 5⟩] ≠
      max (Strip.frameEnd ⟨1, 2, 10⟩) (Strip.frameEnd ⟨0, 0, 5⟩) := by
  with_unfolding_all decide

/-- C5, counterexample: with the degenerate (but min/max well-formed)
plane `A = [0,0]×[0,1]` and the plane `B = [0,1]×[0,1]`, both cross
products of the North test vanish because the North edge of `A` has
zero length, so `A` lists `B` as a North sibling; the reverse South
test classifies as back, so `B` does not list `A`. -/
theorem adjacency_symmetry_counterexample :
    listsSibling ⟨0, 0, 0, 1⟩ ⟨0, 0, 1, 1⟩ Side.N = true ∧
    listsSibling ⟨0, 0, 1, 1⟩ ⟨0, 0, 0, 1⟩ Side.N.opposite = false ∧
    (⟨0, 0, 0, 1⟩ : Box) ≠ ⟨0, 0, 1, 1⟩ ∧
    (⟨0, 0, 0, 1⟩ : Box).wf ∧ (⟨0, 0, 1, 1⟩ : Box).wf :=
  ⟨by with_unfolding_all decide, by with_unfolding_all decide,
   by with_unfolding_all decide, ⟨by norm_num, by norm_num⟩,
   ⟨by norm_num, by norm_num⟩⟩

/-- C5, amended: for well-formed plane boxes, adjacency is symmetric
provided the facing edges coincide *exactly* (the connected
classification is then not merely a rounding-tolerance hit): if `A`
lists `B` as a sibling on side `S`, then `B` lists `A` on the opposite
side. -/
theorem adjacency_symmetry_amended (a b : Box) (s : Side) (ha : a.wf) (hb : b.wf)
    (hc : edgesCoincide a b s) (h : listsSibling a b s = true) :
    listsSibling b a s.opposite = true := by
  simp only [listsSibling, decide_eq_true_eq] at h
  have hplane : isInPlane b a ≠ 0 := isInPlane_symm_ne a b ha hb h.2
  simp only [listsSibling, decide_eq_true_eq]
  cases s
  case N =>
    have hcc : b.y1 = a.y2 := hc
    dsimp only [Side.opposite, getSepLine]
    refine ⟨?_, hplane⟩
    have e1 : (a.x1 - b.x1) * (b.y1 - b.y1) - (a.y2 - b.y1) * (b.x2 - b.x1) = 0 := by
      rw [hcc]; ring
    have e2 : (a.x2 - b.x1) * (b.y1 - b.y1) - (a.y2 - b.y1) * (b.x2 - b.x1) = 0 := by
      rw [hcc]; ring
    unfold checkLine
    rw [e1, e2, round4_zero]
    exact signClassify_zero
  case S =>
    have hcc : b.y2 = a.y1 := hc
    dsimp only [Side.opposite, getSepLine]
    refine ⟨?_, hplane⟩
    have e1 : (a.x1 - b.x1) * (b.y2 - b.y2) - (a.y1 - b.y2) * (b.x2 - b.x1) = 0 := by
      rw [hcc]; ring
    have e2 : (a.x2 - b.x1) * (b.y2 - b.y2) - (a.y1 - b.y2) * (b.x2 - b.x1) = 0 := by
      rw [hcc]; ring
    unfold checkLine
    rw [e1, e2, round4_zero]
    exact signClassify_zero
  case W =>
    have hcc : b.x2 = a.x1 := hc
    dsimp only [Side.opposite, getSepLine]
    refine ⟨?_, hplane⟩
    have e1 : (a.x1 - b.x2) * (b.y2 - b.y1) - (a.y1 - b.y1) * (b.x2 - b.x2) = 0 := by
      rw [hcc]; ring
    have e2 : (a.x1 - b.x2) * (b.y2 - b.y1) - (a.y2 - b.y1) * (b.x2 - b.x2) = 0 := by
      rw [hcc]; ring
    unfold checkLine
    rw [e1, e2, round4_zero]
    exact signClassify_zero
  case E =>
    have hcc : b.x1 = a.x2 := hc
    dsimp only [Side.opposite, getSepLine]
    refine ⟨?_, hplane⟩
    have e1 : (a.x2 - b.x1) * (b.y2 - b.y1) - (a.y1 - b.y1) * (b.x1 - b.x1) = 0 := by
      rw [hcc]; ring
    have e2 : (a.x2 - b.x1) * (b.y2 - b.y1) - (a.y2 - b.y1) * (b.x1 - b.x1) = 0 := by
      rw [hcc]; ring
    unfold checkLine
    rw [e1, e2, round4_zero]
    exact signClassify_zero

/-- C5, witness: two stacked unit squares sharing the full edge
`y = 1` exactly; the amended theorem yields the mutual South sibling. -/
theorem adjacency_symmetry_amended_witness :
    listsSibling ⟨0, 1, 1, 2⟩ ⟨0, 0, 1, 1⟩ Side.N.opposite = true :=
  adjacency_symmetry_amended ⟨0, 0, 1, 1⟩ ⟨0, 1, 1, 2⟩ Side.N
    ⟨by norm_num, by norm_num⟩ ⟨by norm_num, by norm_num⟩
    rfl (by with_unfolding_all decide)

/-- C6, code-bug evaluation: for any export (file name `level0`, mesh
`Cube`) the body declares and references the vertex-array symbol
`level0_modelCube_mesh`, but the symbol-table entry pushed at the same
time omits the file-name prefix, so the referenced symbol occurs zero
times in the table (the sibling normal-array entry, pushed with the
prefix, occurs exactly once) and the header gets an extern line for a
symbol the body never defines. -/
theorem symbol_table_missing_prefix_eval :
    (populateMeshSymbols ("level0") ("Cube")).count
        ("SVECTOR level0_modelCube_mesh[]") = 0 ∧
    (populateMeshSymbols ("level0") ("Cube")).count
        ("SVECTOR level0_modelCube_normal[]") = 1 ∧
    svectorMeshDecl ("level0") ("Cube") = "SVECTOR level0_modelCube_mesh[] = \x7b" ∧
    externLine ("SVECTOR modelCube_mesh[]") = "extern SVECTOR modelCube_mesh[];" := by
  with_unfolding_all decide

/-- C7, counterexample: at UV `(0, 0)` on a 256 by 256 texture the
emitted V texel is 255 (the V axis is flipped by the texture height
before clamping), while the value claimed by the spec — normalized UV
times pixel dimensions, clamped — is 0. -/
theorem uv_texel_counterexample :
    (uvEmitU 0 256, uvEmitV 0 256) ≠ uvClaimed 0 0 256 256 ∧
    uvEmitV 0 256 = 255 ∧ (uvClaimed 0 0 256 256).2 = 0 := by
  with_unfolding_all decide

/-- C7, amended: the emitted texel pair is
`(clamp(round(u*W)), clamp(round(H - v*H)))` — the V coordinate is
height-flipped before rounding; each component lies in `[0, 255]` and
is the in-range integer nearest the rounded raw value, so out-of-range
values are clamped to the nearest bound and never raise an error. -/
theorem uv_texel_amended (u v : ℚ) (w h : ℕ) :
    (0 ≤ uvEmitU u w ∧ uvEmitU u w ≤ 255 ∧
      ∀ t : ℤ, 0 ≤ t → t ≤ 255 →
        |uvEmitU u w - pyRound (u * w)| ≤ |t - pyRound (u * w)|) ∧
    (0 ≤ uvEmitV v h ∧ uvEmitV v h ≤ 255 ∧
      ∀ t : ℤ, 0 ≤ t → t ≤ 255 →
        |uvEmitV v h - pyRound ((h : ℚ) - v * h)| ≤
          |t - pyRound ((h : ℚ) - v * h)|) := by
  unfold uvEmitU uvEmitV
  refine ⟨⟨le_max_left _ _, ?_, fun t h0 h255 => clamp_proj _ t h0 h255⟩,
          ⟨le_max_left _ _, ?_, fun t h0 h255 => clamp_proj _ t h0 h255⟩⟩ <;>
    exact max_le (by norm_num) (min_le_right _ _)

/-- C7, witness for the amended theorem at `u = v = 0`, `W = H = 1`,
with the in-range comparison point `t = 7`. -/
theorem uv_texel_amended_witness :
    0 ≤ uvEmitU 0 1 ∧
    |uvEmitU 0 1 - pyRound ((0 : ℚ) * (1 : ℕ))| ≤ |7 - pyRound ((0 : ℚ) * (1 : ℕ))| ∧
    |uvEmitV 0 1 - pyRound (((1 : ℕ) : ℚ) - 0 * (1 : ℕ))| ≤
      |7 - pyRound (((1 : ℕ) : ℚ) - 0 * (1 : ℕ))| :=
  ⟨(uv_texel_amended 0 0 1 1).1.1,
   (uv_texel_amended 0 0 1 1).1.2.2 7 (by norm_num) (by norm_num),
   (uv_texel_amended 0 0 1 1).2.2.2 7 (by norm_num) (by norm_num)⟩

/-- C8: for every oracle describing the scene (frame containment, ray
casts, portal flags), every ray-target list and every actor, the actor
is a member of the final CAMANGLE visible-target list; it is appended
exactly when the ray-casting loop did not already find it. -/
theorem actor_always_visible (o : VisOracle) (rayTargets : List ℕ) (actor : ℕ) :
    actor ∈ camAngleTargets o rayTargets actor ∧
      (actor ∉ visibleTargets o rayTargets →
        camAngleTargets o rayTargets actor = visibleTargets o rayTargets ++ [actor]) := by
  unfold camAngleTargets
  dsimp only
  by_cases hmem : actor ∈ visibleTargets o rayTargets
  · rw [if_pos hmem]
    exact ⟨hmem, fun hn => absurd hmem hn⟩
  · rw [if_neg hmem]
    exact ⟨List.mem_append_right _ (List.mem_singleton.2 rfl), fun _ => rfl⟩

/-- C8, witness: with an oracle that sees nothing and an empty
ray-target list, actor 5 is still in the list, as the sole appended
element. -/
theorem actor_always_visible_witness :
    5 ∈ camAngleTargets ⟨fun _ => false, fun _ => none, fun _ => false, fun _ => none⟩
        [] 5 ∧
    camAngleTargets ⟨fun _ => false, fun _ => none, fun _ => false, fun _ => none⟩
        [] 5 =
      visibleTargets ⟨fun _ => false, fun _ => none, fun _ => false, fun _ => none⟩
        [] ++ [5] :=
  ⟨(actor_always_visible ⟨fun _ => false, fun _ => none, fun _ => false, fun _ => none⟩
      [] 5).1,
   (actor_always_visible ⟨fun _ => false, fun _ => none, fun _ => false, fun _ => none⟩
      [] 5).2 (by with_unfolding_all decide)⟩

/-- C9, counterexample: when the resolved prop `A` (plane `P`) has a
name that is a prefix of the unresolved mesh `AB`, the earlier
string replacement corrupts the placeholder line of `AB`, so that line
is not replaced by the zero sentinel — the claim that every
unresolved placeholder becomes the sentinel fails. -/
theorem placeholder_substitution_counterexample :
    substitutionPass [("subs_A", "&level0_nodeP")] ["\tsubs_AB,"] =
      ["\t&level0_nodePB,"] ∧
    ("\t&level0_nodePB," : String) ≠ "\t0," := by
  with_unfolding_all decide

/-- C9, amended: after the final substitution pass no line still begins
with the placeholder prefix, and every placeholder line that the
resolved-reference replacements leave untouched (in particular whenever
no resolved placeholder token occurs inside it) is replaced by the zero
sentinel line; the pass is total, so no error is raised. -/
theorem placeholder_substitution_amended (subs : List (String × String))
    (doc : List String) :
    (∀ l ∈ substitutionPass subs doc, strStartsWith l ("\tsubs_") = false) ∧
    (∀ i l, doc.get? i = some l → lineResolve subs l = l →
      strStartsWith l ("\tsubs_") = true →
      (substitutionPass subs doc).get? i = some ("\t0,")) := by
  constructor
  · intro l hl
    unfold substitutionPass at hl
    rcases List.mem_map.1 hl with ⟨l2, hl2, rfl⟩
    unfold zeroUnresolved
    split_ifs with hcond
    · with_unfolding_all decide
    · simpa using hcond
  · intro i l hget hres hstart
    unfold substitutionPass
    rw [List.get?_map, List.get?_map, hget]
    show some (zeroUnresolved (lineResolve subs l)) = some ("\t0,")
    rw [hres]
    unfold zeroUnresolved
    rw [if_pos hstart]

/-- C9, witness: with no resolved references, the single placeholder
line becomes the zero sentinel. -/
theorem placeholder_substitution_amended_witness :
    (substitutionPass [] ["\tsubs_X,"]).get? 0 = some ("\t0,") :=
  (placeholder_substitution_amended [] ["\tsubs_X,"]).2 0 ("\tsubs_X,") rfl rfl
    (by with_unfolding_all decide)

/-- C10: `checkLine` is total over its result set — for all rational
inputs it returns one of exactly the four classifications front, back,
connected, intersect; the nine sign combinations of the two rounded
cross products are exhaustively covered and the `None` fall-through is
unreachable. -/
theorem checkLine_total (lx1 ly1 lx2 ly2 ox1 oy1 ox2 oy2 : ℚ) :
    checkLine lx1 ly1 lx2 ly2 ox1 oy1 ox2 oy2 = some ("front") ∨
    checkLine lx1 ly1 lx2 ly2 ox1 oy1 ox2 oy2 = some ("back") ∨
    checkLine lx1 ly1 lx2 ly2 ox1 oy1 ox2 oy2 = some ("connected") ∨
    checkLine lx1 ly1 lx2 ly2 ox1 oy1 ox2 oy2 = some ("intersect") := by
  unfold checkLine
  exact signClassify_total _ _

end PsxExport
